import Mathlib

/-!
Shallow embedding of `src/servopwm.ts` (MakeCode extension `servoPWM`).

Numbers in MakeCode are JS numbers; every value the servo state stores is
produced through the `| 0` (ToInt32) coercion and integer arithmetic, so the
stored fields are modelled as `Int` (the step-delay `_throttling` is set
without `| 0`, so it is modelled as `ℚ`).  Fractional inputs to the public
setters are modelled as `ℚ`.  The `_anotherCallStack` array of
`control.millis()` timestamps is used by the code only through its `.length`,
so it is modelled by that length (`stackLen : Nat`).

The background transition task `_setPulse` runs cooperatively: its only
suspension point is the `basic.pause(this._throttling)` at the end of each
loop iteration, and `control.inBackground` defers the body until the spawning
call yields.  The task is therefore modelled as a sequence of atomic blocks:
`taskBegin` (everything from the top of `_setPulse` through the first loop
iteration's write, i.e. up to the first `pause`) and `taskResume` (one further
loop iteration, or the loop exit together with the `_anotherCallStack = []`
reset).  `_pulseStep` has no setter in the source, so capturing the loop bound
at `taskBegin` is faithful to the code re-reading it at every iteration.
-/

namespace ServoPWM

set_option maxRecDepth 8000

/-- JS truncation toward zero of a (finite) number, the first half of the
`ToInt32` conversion performed by the `| 0` operator. -/
def jsTrunc (q : ℚ) : Int := if 0 ≤ q then ⌊q⌋ else -⌊-q⌋

/-- JS `x | 0`: ToInt32, i.e. truncate toward zero then wrap into
`[-2^31, 2^31)`. -/
def toInt32 (q : ℚ) : Int := (jsTrunc q + 2 ^ 31) % 2 ^ 32 - 2 ^ 31

/-- JS `Math.round`: floor of `x + 1/2` (halves round toward positive
infinity). -/
def jsRound (q : ℚ) : Int := ⌊q + 1 / 2⌋

/-- MakeCode `Math.constrain(x, lo, hi) = Math.min(Math.max(x, lo), hi)`. -/
def constrain (x lo hi : Int) : Int := min (max x lo) hi

/-- `Math.constrain` on not-yet-truncated numbers (used by `setDelay`, whose
argument is not passed through `| 0`). -/
def constrainQ (x lo hi : ℚ) : ℚ := min (max x lo) hi

/-- The per-servo state: the mutable fields of `class Servo`, with
`_anotherCallStack` represented by its length. -/
structure Servo where
  pin : Int
  pulse : Int
  throttling : ℚ
  pulseStep : Int
  pwmOn : Bool
  neutralPulse : Int
  minPulse : Int
  maxPulse : Int
  minAngle : Int
  maxAngle : Int
  stackLen : Nat
deriving DecidableEq

/-- The constructor `new Servo(pin, pwmStart)` together with the field
initializers of the class. -/
def initServo (pin : Int) (pwmStart : Bool) : Servo :=
  { pin := pin
    pulse := 1500
    throttling := 0
    pulseStep := 10
    pwmOn := pwmStart
    neutralPulse := 1500
    minPulse := 500
    maxPulse := 2500
    minAngle := 0
    maxAngle := 180
    stackLen := 0 }

/-- `setPulse(micros)`.  Clamps `micros | 0` into the pulse bounds.  In
immediate mode (`_throttling == Speed.Immediately`, i.e. `0`) it pushes a
timestamp, writes `_pulse` and raises `_pwmOn` synchronously and spawns no
task; otherwise it raises `_pwmOn` and spawns `_setPulse(micros)` in the
background.  The spawned task's clamped target is returned as the second
component. -/
def setPulse (s : Servo) (micros : ℚ) : Servo × Option Int :=
  let m : Int := constrain (toInt32 micros) s.minPulse s.maxPulse
  if s.throttling = 0 then
    ({ s with stackLen := s.stackLen + 1, pulse := m, pwmOn := true }, none)
  else
    ({ s with pwmOn := true }, some m)

/-- `setPulseBy(micros)`: `setPulse(micros + this._pulse)`. -/
def setPulseBy (s : Servo) (micros : ℚ) : Servo × Option Int :=
  setPulse s (micros + (s.pulse : ℚ))

/-- `_angleToPulse(degrees)`: linear interpolation
`(maxPulse - minPulse) * ((degrees - minAngle) / (maxAngle - minAngle))`.
The source divides JS floats; the model divides in `ℚ`.  (When
`maxAngle = minAngle` the model's `x / 0 = 0` convention diverges from IEEE
arithmetic, so theorems about this function assume `minAngle < maxAngle`.) -/
def angleToPulse (s : Servo) (degrees : ℚ) : ℚ :=
  ((s.maxPulse : ℚ) - (s.minPulse : ℚ)) *
    ((degrees - (s.minAngle : ℚ)) / ((s.maxAngle : ℚ) - (s.minAngle : ℚ)))

/-- `setAngle(degrees)`: clamp `degrees | 0` into the angle bounds, then
`setPulse(minPulse + _angleToPulse(degrees))`. -/
def setAngle (s : Servo) (degrees : ℚ) : Servo × Option Int :=
  let deg : Int := constrain (toInt32 degrees) s.minAngle s.maxAngle
  setPulse s ((s.minPulse : ℚ) + angleToPulse s (deg : ℚ))

/-- `setAngleBy(degrees)`: clamp the relative `degrees | 0` into the
(absolute) angle bounds, then `setPulse(this._pulse + _angleToPulse(degrees))`. -/
def setAngleBy (s : Servo) (degrees : ℚ) : Servo × Option Int :=
  let deg : Int := constrain (toInt32 degrees) s.minAngle s.maxAngle
  setPulse s ((s.pulse : ℚ) + angleToPulse s (deg : ℚ))

/-- `stop()`: clears `_pwmOn`; the pin reads/pull changes are external
effects and touch no field. -/
def stop (s : Servo) : Servo := { s with pwmOn := false }

/-- `setDelay(stepDuration)`: `_throttling = Math.constrain(stepDuration, 0, 100)`
(no `| 0` in the source). -/
def setDelay (s : Servo) (stepDuration : ℚ) : Servo :=
  { s with throttling := constrainQ stepDuration 0 100 }

/-- `setMinPulse(pulse)`: `_minPulse = Math.constrain(pulse | 0, 250, _maxPulse)`;
`_pulse` is not re-clamped. -/
def setMinPulse (s : Servo) (pulse : ℚ) : Servo :=
  { s with minPulse := constrain (toInt32 pulse) 250 s.maxPulse }

/-- `setMaxPulse(pulse)`: `_maxPulse = Math.constrain(pulse | 0, _minPulse, 3000)`. -/
def setMaxPulse (s : Servo) (pulse : ℚ) : Servo :=
  { s with maxPulse := constrain (toInt32 pulse) s.minPulse 3000 }

/-- `setMinAngle(degrees)`: `_minAngle = Math.constrain(degrees | 0, -3600, _maxAngle)`. -/
def setMinAngle (s : Servo) (degrees : ℚ) : Servo :=
  { s with minAngle := constrain (toInt32 degrees) (-3600) s.maxAngle }

/-- `setMaxAngle(degrees)`: `_maxAngle = Math.constrain(degrees | 0, _minAngle, 3600)`. -/
def setMaxAngle (s : Servo) (degrees : ℚ) : Servo :=
  { s with maxAngle := constrain (toInt32 degrees) s.minAngle 3600 }

/-- `callPulse()`: one emission-loop visit of this servo.  Emits
`(pin, pulse)` when `_pwmOn` is set, nothing otherwise. -/
def callPulse (s : Servo) : Option (Int × Int) :=
  if s.pwmOn then some (s.pin, s.pulse) else none

/-- One tick of the process-wide 50 Hz emission loop over the registry. -/
def emitTick (registry : List Servo) : List (Int × Int) :=
  registry.filterMap callPulse

/-- The loop bound of `_setPulse`:
`Math.round(Math.abs(pulseFrom - pulseTo) / this._pulseStep)`. -/
def transSteps (d stp : Int) : Nat := (jsRound ((d : ℚ) / (stp : ℚ))).toNat

/-- The locals of `_setPulse` that persist across its suspension points:
`direction`, the `anotherCallsCount` snapshot, the loop bound and the loop
counter `k`. -/
structure TaskCtx where
  dir : Int
  snap : Nat
  steps : Nat
  k : Nat
deriving DecidableEq

/-- First atomic block of `_setPulse(target)`: everything up to the first
`basic.pause`.  Computes `direction`/`pulseFrom`/`pulseTo`, returns early when
the move is below one `_pulseStep` (without pushing a timestamp), otherwise
pushes onto `_anotherCallStack`, snapshots its length, and runs the first loop
iteration (power check, snapshot check, first `_pulse` write).  Returns the
suspended loop context, or `none` when the task finished. -/
def taskBegin (s : Servo) (target : Int) : Servo × Option TaskCtx :=
  let dir : Int := if s.pulse < target then 1 else -1
  let d : Int := max s.pulse target - min s.pulse target
  if d < s.pulseStep then (s, none)
  else
    let s1 : Servo := { s with stackLen := s.stackLen + 1 }
    let snap : Nat := s1.stackLen
    let steps : Nat := transSteps d s.pulseStep
    if steps = 0 then ({ s1 with stackLen := 0 }, none)
    else if s1.pwmOn = false then (s1, none)
    else if snap ≠ s1.stackLen then (s1, none)
    else ({ s1 with pulse := s1.pulse + s.pulseStep * dir },
          some { dir := dir, snap := snap, steps := steps, k := 1 })

/-- One further atomic block of `_setPulse`, entered when the task wakes from
`basic.pause`: either the next loop iteration (power check, snapshot check,
`_pulse += _pulseStep * direction`), or — when the loop bound is reached — the
loop exit together with the `this._anotherCallStack = []` reset. -/
def taskResume (s : Servo) (c : TaskCtx) : Servo × Option TaskCtx :=
  if c.k < c.steps then
    if s.pwmOn = false then (s, none)
    else if c.snap ≠ s.stackLen then (s, none)
    else ({ s with pulse := s.pulse + s.pulseStep * c.dir },
          some { c with k := c.k + 1 })
  else ({ s with stackLen := 0 }, none)

/-- Run a suspended transition task to termination, no other task
interleaving (fuel-indexed; `fuel` bounds the number of resumptions). -/
def taskFinish : Nat → Servo → TaskCtx → Servo
  | 0, s, _ => s
  | Nat.succ n, s, c =>
    match taskResume s c with
    | (s', none) => s'
    | (s', some c') => taskFinish n s' c'

/-- A complete uninterfered run of the background task `_setPulse(target)`. -/
def runSetPulse (s : Servo) (target : Int) : Servo :=
  match taskBegin s target with
  | (s', none) => s'
  | (s', some c) => taskFinish (c.steps + 1) s' c

/-- `setPulse(micros)` together with an uninterfered complete run of the
transition task it spawns (if any). -/
def setPulseSync (s : Servo) (micros : ℚ) : Servo :=
  match setPulse s micros with
  | (s', none) => s'
  | (s', some m) => runSetPulse s' m

/-! IEEE-double-faithful JS numbers.  The `ℚ` pipeline above is exact on the
float-exact cases the other claims use, but `_angleToPulse` can divide by zero
when `_maxAngle == _minAngle`, and there the runtime's double semantics
matter: `0/0` is NaN, `x/0` is ±Infinity, and the callers' `| 0` (ToInt32)
maps NaN and ±Infinity to 0.  `JsNum` extends the finite values with those
states (ℚ has no signed zero; the single 0 is treated as +0, which covers
every value this program produces). -/

/-- A JS number: a finite (exact) value, NaN, or ±Infinity. -/
inductive JsNum where
  | finite (q : ℚ)
  | nan
  | inf
  | negInf
deriving DecidableEq

/-- JS `+` on numbers: ∞ + (−∞) is NaN, infinities absorb finite values. -/
def jsAdd : JsNum → JsNum → JsNum
  | JsNum.finite a, JsNum.finite b => JsNum.finite (a + b)
  | JsNum.nan, _ => JsNum.nan
  | _, JsNum.nan => JsNum.nan
  | JsNum.inf, JsNum.negInf => JsNum.nan
  | JsNum.negInf, JsNum.inf => JsNum.nan
  | JsNum.inf, _ => JsNum.inf
  | _, JsNum.inf => JsNum.inf
  | JsNum.negInf, _ => JsNum.negInf
  | _, JsNum.negInf => JsNum.negInf

/-- JS `-` on numbers: ∞ − ∞ is NaN, infinities absorb finite values. -/
def jsSub : JsNum → JsNum → JsNum
  | JsNum.finite a, JsNum.finite b => JsNum.finite (a - b)
  | JsNum.nan, _ => JsNum.nan
  | _, JsNum.nan => JsNum.nan
  | JsNum.inf, JsNum.inf => JsNum.nan
  | JsNum.negInf, JsNum.negInf => JsNum.nan
  | JsNum.inf, _ => JsNum.inf
  | JsNum.negInf, _ => JsNum.negInf
  | JsNum.finite _, JsNum.inf => JsNum.negInf
  | JsNum.finite _, JsNum.negInf => JsNum.inf

/-- JS `*` on numbers: 0 × ∞ is NaN, otherwise signs multiply. -/
def jsMul : JsNum → JsNum → JsNum
  | JsNum.finite a, JsNum.finite b => JsNum.finite (a * b)
  | JsNum.nan, _ => JsNum.nan
  | _, JsNum.nan => JsNum.nan
  | JsNum.inf, JsNum.finite b =>
      if b = 0 then JsNum.nan else if 0 < b then JsNum.inf else JsNum.negInf
  | JsNum.negInf, JsNum.finite b =>
      if b = 0 then JsNum.nan else if 0 < b then JsNum.negInf else JsNum.inf
  | JsNum.finite a, JsNum.inf =>
      if a = 0 then JsNum.nan else if 0 < a then JsNum.inf else JsNum.negInf
  | JsNum.finite a, JsNum.negInf =>
      if a = 0 then JsNum.nan else if 0 < a then JsNum.negInf else JsNum.inf
  | JsNum.inf, JsNum.inf => JsNum.inf
  | JsNum.inf, JsNum.negInf => JsNum.negInf
  | JsNum.negInf, JsNum.inf => JsNum.negInf
  | JsNum.negInf, JsNum.negInf => JsNum.inf

/-- JS `/` on numbers: `0/0` is NaN, `x/0` is ±Infinity by the sign of `x`,
`x/±∞` is 0, `±∞/±∞` is NaN (the divisor 0 is treated as +0). -/
def jsDiv : JsNum → JsNum → JsNum
  | JsNum.finite a, JsNum.finite b =>
      if b = 0 then
        (if a = 0 then JsNum.nan else if 0 < a then JsNum.inf else JsNum.negInf)
      else JsNum.finite (a / b)
  | JsNum.nan, _ => JsNum.nan
  | _, JsNum.nan => JsNum.nan
  | JsNum.inf, JsNum.finite b => if 0 ≤ b then JsNum.inf else JsNum.negInf
  | JsNum.negInf, JsNum.finite b => if 0 ≤ b then JsNum.negInf else JsNum.inf
  | JsNum.finite _, JsNum.inf => JsNum.finite 0
  | JsNum.finite _, JsNum.negInf => JsNum.finite 0
  | JsNum.inf, _ => JsNum.nan
  | JsNum.negInf, _ => JsNum.nan

/-- JS `x | 0` on a possibly non-finite number: ToInt32 maps NaN and
±Infinity to 0. -/
def toInt32Js : JsNum → Int
  | JsNum.finite q => toInt32 q
  | JsNum.nan => 0
  | JsNum.inf => 0
  | JsNum.negInf => 0

/-- `_angleToPulse(degrees)` over IEEE-faithful JS numbers. -/
def angleToPulseJs (s : Servo) (degrees : JsNum) : JsNum :=
  jsMul (jsSub (JsNum.finite (s.maxPulse : ℚ)) (JsNum.finite (s.minPulse : ℚ)))
    (jsDiv (jsSub degrees (JsNum.finite (s.minAngle : ℚ)))
      (jsSub (JsNum.finite (s.maxAngle : ℚ)) (JsNum.finite (s.minAngle : ℚ))))

/-- `setPulse(micros)` over IEEE-faithful JS numbers (the stored state is
unchanged in representation, since every stored field goes through `| 0`). -/
def setPulseJs (s : Servo) (micros : JsNum) : Servo × Option Int :=
  let m : Int := constrain (toInt32Js micros) s.minPulse s.maxPulse
  if s.throttling = 0 then
    ({ s with stackLen := s.stackLen + 1, pulse := m, pwmOn := true }, none)
  else
    ({ s with pwmOn := true }, some m)

/-- `setAngle(degrees)` over IEEE-faithful JS numbers. -/
def setAngleJs (s : Servo) (degrees : JsNum) : Servo × Option Int :=
  let deg : Int := constrain (toInt32Js degrees) s.minAngle s.maxAngle
  setPulseJs s (jsAdd (JsNum.finite (s.minPulse : ℚ)) (angleToPulseJs s (JsNum.finite (deg : ℚ))))

/-- `setAngleBy(degrees)` over IEEE-faithful JS numbers. -/
def setAngleByJs (s : Servo) (degrees : JsNum) : Servo × Option Int :=
  let deg : Int := constrain (toInt32Js degrees) s.minAngle s.maxAngle
  setPulseJs s (jsAdd (JsNum.finite (s.pulse : ℚ)) (angleToPulseJs s (JsNum.finite (deg : ℚ))))

/-! Arithmetic facts about the JS number helpers. -/

theorem jsTrunc_intCast (n : Int) : jsTrunc (n : ℚ) = n := by
  rw [jsTrunc]
  split_ifs with h
  · exact Int.floor_intCast n
  · rw [show (-(n : ℚ)) = ((-n : Int) : ℚ) by push_cast; ring, Int.floor_intCast]
    ring

theorem toInt32_of_range (q : ℚ) (h1 : -2 ^ 31 ≤ jsTrunc q) (h2 : jsTrunc q < 2 ^ 31) :
    toInt32 q = jsTrunc q := by
  rw [toInt32, Int.emod_eq_of_lt (by omega) (by omega)]
  omega

theorem toInt32_intCast (n : Int) (h1 : -2 ^ 31 ≤ n) (h2 : n < 2 ^ 31) :
    toInt32 (n : ℚ) = n := by
  rw [toInt32_of_range _ (by rw [jsTrunc_intCast]; exact h1)
    (by rw [jsTrunc_intCast]; exact h2), jsTrunc_intCast]

theorem jsTrunc_eq_floor (q : ℚ) (h : 0 ≤ q) : jsTrunc q = ⌊q⌋ := by
  rw [jsTrunc, if_pos h]

theorem jsRound_intCast_div (d stp : Int) (hs : 0 < stp) :
    jsRound ((d : ℚ) / (stp : ℚ)) = (2 * d + stp) / (2 * stp) := by
  have hs0 : (stp : ℚ) ≠ 0 := Int.cast_ne_zero.mpr (by omega)
  have h2s : ((2 * stp).toNat : ℤ) = 2 * stp := Int.toNat_of_nonneg (by omega)
  have hcast : (((2 * stp).toNat : ℕ) : ℚ) = 2 * (stp : ℚ) := by
    have : (((2 * stp).toNat : ℤ) : ℚ) = ((2 * stp : ℤ) : ℚ) := by rw [h2s]
    push_cast at this
    linarith
  have hq : (d : ℚ) / (stp : ℚ) + 1 / 2 =
      ((2 * d + stp : ℤ) : ℚ) / (((2 * stp).toNat : ℕ) : ℚ) := by
    rw [hcast]
    push_cast
    field_simp
    ring
  rw [jsRound, hq, Rat.floor_intCast_div_natCast, h2s]

theorem transSteps_spec (d stp : Int) (hs : 0 < stp) (hd : stp ≤ d) :
    1 ≤ (transSteps d stp : Int) ∧
      2 * |stp * (transSteps d stp : Int) - d| ≤ stp := by
  have hkey : 2 * stp * ((2 * d + stp) / (2 * stp)) + (2 * d + stp) % (2 * stp)
      = 2 * d + stp := Int.ediv_add_emod _ _
  have hr0 : 0 ≤ (2 * d + stp) % (2 * stp) := Int.emod_nonneg _ (by omega)
  have hr1 : (2 * d + stp) % (2 * stp) < 2 * stp := Int.emod_lt_of_pos _ (by omega)
  have hq1 : 1 ≤ (2 * d + stp) / (2 * stp) := by
    rcases le_or_lt 1 ((2 * d + stp) / (2 * stp)) with h | h
    · exact h
    · exfalso
      have hq0 : (2 * d + stp) / (2 * stp) ≤ 0 := by omega
      have hnp : 2 * stp * ((2 * d + stp) / (2 * stp)) ≤ 0 :=
        mul_nonpos_of_nonneg_of_nonpos (by omega) hq0
      linarith
  have hts : (transSteps d stp : Int) = (2 * d + stp) / (2 * stp) := by
    rw [transSteps, jsRound_intCast_div d stp hs, Int.toNat_of_nonneg (by omega)]
  constructor
  · rw [hts]; exact hq1
  · rw [hts]
    have habs : 2 * |stp * ((2 * d + stp) / (2 * stp)) - d|
        = |2 * (stp * ((2 * d + stp) / (2 * stp)) - d)| := by
      rw [abs_mul]
      simp [abs_of_nonneg]
    rw [habs]
    rw [abs_le]
    constructor <;> nlinarith [hkey, hr0, hr1]

/-! Behaviour of the transition-task atomic blocks. -/

theorem taskBegin_small (s : Servo) (t : Int)
    (h : max s.pulse t - min s.pulse t < s.pulseStep) :
    taskBegin s t = (s, none) := by
  simp only [taskBegin]
  rw [if_pos h]

theorem taskBegin_big (s : Servo) (t : Int) (hs : 0 < s.pulseStep)
    (hpw : s.pwmOn = true)
    (hd : s.pulseStep ≤ max s.pulse t - min s.pulse t) :
    taskBegin s t =
      ({ s with stackLen := s.stackLen + 1,
                pulse := s.pulse + s.pulseStep * (if s.pulse < t then 1 else -1) },
        some { dir := if s.pulse < t then 1 else -1, snap := s.stackLen + 1,
               steps := transSteps (max s.pulse t - min s.pulse t) s.pulseStep,
               k := 1 }) := by
  have hne : ¬ (max s.pulse t - min s.pulse t < s.pulseStep) := not_lt.mpr hd
  have hsteps : ¬ (transSteps (max s.pulse t - min s.pulse t) s.pulseStep = 0) := by
    have h1 := (transSteps_spec _ _ hs hd).1
    omega
  simp only [taskBegin]
  rw [if_neg hne, if_neg hsteps, if_neg (by simp [hpw]), if_neg (by simp)]

theorem taskBegin_pwmOff (s : Servo) (t : Int) (hoff : s.pwmOn = false) :
    (taskBegin s t).1.pulse = s.pulse ∧ (taskBegin s t).2 = none := by
  simp only [taskBegin]
  by_cases h1 : max s.pulse t - min s.pulse t < s.pulseStep
  · rw [if_pos h1]
    exact ⟨rfl, rfl⟩
  · rw [if_neg h1]
    by_cases h2 : transSteps (max s.pulse t - min s.pulse t) s.pulseStep = 0
    · rw [if_pos h2]
      exact ⟨rfl, rfl⟩
    · rw [if_neg h2, if_pos (show ({ s with stackLen := s.stackLen + 1 } : Servo).pwmOn = false from hoff)]
      exact ⟨rfl, rfl⟩

theorem taskResume_continue (s : Servo) (c : TaskCtx) (hk : c.k < c.steps)
    (hpw : s.pwmOn = true) (hsnap : c.snap = s.stackLen) :
    taskResume s c = ({ s with pulse := s.pulse + s.pulseStep * c.dir },
      some { c with k := c.k + 1 }) := by
  simp only [taskResume]
  rw [if_pos hk, if_neg (by rw [hpw]; simp), if_neg (by simpa using hsnap)]

theorem taskResume_finish (s : Servo) (c : TaskCtx) (hk : ¬ c.k < c.steps) :
    taskResume s c = ({ s with stackLen := 0 }, none) := by
  simp only [taskResume]
  rw [if_neg hk]

theorem taskResume_pwmOff (s : Servo) (c : TaskCtx) (hoff : s.pwmOn = false) :
    (taskResume s c).1.pulse = s.pulse ∧ (taskResume s c).2 = none := by
  simp only [taskResume]
  by_cases h1 : c.k < c.steps
  · rw [if_pos h1, if_pos hoff]
    exact ⟨rfl, rfl⟩
  · rw [if_neg h1]
    exact ⟨rfl, rfl⟩

theorem taskResume_stale (s : Servo) (c : TaskCtx) (h : c.snap ≠ s.stackLen) :
    (taskResume s c).1.pulse = s.pulse ∧ (taskResume s c).2 = none := by
  simp only [taskResume]
  by_cases h1 : c.k < c.steps
  · rw [if_pos h1]
    by_cases h2 : s.pwmOn = false
    · rw [if_pos h2]
      exact ⟨rfl, rfl⟩
    · rw [if_neg h2, if_pos h]
      exact ⟨rfl, rfl⟩
  · rw [if_neg h1]
    exact ⟨rfl, rfl⟩

theorem taskResume_stackLen (s : Servo) (c : TaskCtx) :
    (taskResume s c).1.stackLen = s.stackLen ∨ (taskResume s c).1.stackLen = 0 := by
  simp only [taskResume]
  by_cases h1 : c.k < c.steps
  · rw [if_pos h1]
    by_cases h2 : s.pwmOn = false
    · rw [if_pos h2]
      exact Or.inl rfl
    · rw [if_neg h2]
      by_cases h3 : c.snap ≠ s.stackLen
      · rw [if_pos h3]
        exact Or.inl rfl
      · rw [if_neg h3]
        exact Or.inl rfl
  · rw [if_neg h1]
    exact Or.inr rfl

theorem taskFinish_spec (fuel : Nat) (s : Servo) (c : TaskCtx)
    (hpw : s.pwmOn = true) (hsnap : c.snap = s.stackLen) (hk : c.k ≤ c.steps)
    (hf : c.steps - c.k < fuel) :
    taskFinish fuel s c =
      { s with pulse := s.pulse + s.pulseStep * c.dir * ((c.steps : Int) - (c.k : Int)),
               stackLen := 0 } := by
  induction fuel generalizing s c with
  | zero => omega
  | succ n ih =>
    by_cases hlt : c.k < c.steps
    · have ihres := ih { s with pulse := s.pulse + s.pulseStep * c.dir }
        { c with k := c.k + 1 } hpw hsnap hlt (show c.steps - (c.k + 1) < n by omega)
      simp only [taskFinish, taskResume_continue s c hlt hpw hsnap]
      rw [ihres]
      obtain ⟨pin, pulse, thr, stp, pw, np, mnp, mxp, mna, mxa, sl⟩ := s
      simp only [Servo.mk.injEq, and_true, true_and]
      push_cast
      ring
    · have hke : c.k = c.steps := by omega
      simp only [taskFinish, taskResume_finish s c hlt]
      obtain ⟨pin, pulse, thr, stp, pw, np, mnp, mxp, mna, mxa, sl⟩ := s
      simp only [Servo.mk.injEq, and_true, true_and]
      rw [hke]
      ring

theorem runSetPulse_small (s : Servo) (t : Int)
    (h : max s.pulse t - min s.pulse t < s.pulseStep) :
    runSetPulse s t = s := by
  rw [runSetPulse, taskBegin_small s t h]

theorem runSetPulse_big (s : Servo) (t : Int) (hs : 0 < s.pulseStep)
    (hpw : s.pwmOn = true)
    (hd : s.pulseStep ≤ max s.pulse t - min s.pulse t) :
    runSetPulse s t =
      { s with pulse := s.pulse + s.pulseStep * (if s.pulse < t then 1 else -1) *
                 (transSteps (max s.pulse t - min s.pulse t) s.pulseStep : Int),
               stackLen := 0 } := by
  have h1 := (transSteps_spec _ _ hs hd).1
  simp only [runSetPulse, taskBegin_big s t hs hpw hd]
  rw [taskFinish_spec (transSteps (max s.pulse t - min s.pulse t) s.pulseStep + 1)
    { s with stackLen := s.stackLen + 1,
             pulse := s.pulse + s.pulseStep * (if s.pulse < t then 1 else -1) }
    { dir := if s.pulse < t then 1 else -1, snap := s.stackLen + 1,
      steps := transSteps (max s.pulse t - min s.pulse t) s.pulseStep, k := 1 }
    hpw rfl
    (show (1 : Nat) ≤ transSteps (max s.pulse t - min s.pulse t) s.pulseStep by omega)
    (show transSteps (max s.pulse t - min s.pulse t) s.pulseStep - 1
        < transSteps (max s.pulse t - min s.pulse t) s.pulseStep + 1 by omega)]
  obtain ⟨pin, pulse, thr, stp, pw, np, mnp, mxp, mna, mxa, sl⟩ := s
  simp only [Servo.mk.injEq, and_true, true_and]
  push_cast
  ring

theorem runSetPulse_within (s : Servo) (t : Int) (hs : 0 < s.pulseStep)
    (hpw : s.pwmOn = true) :
    |(runSetPulse s t).pulse - t| ≤ s.pulseStep := by
  have habs : max s.pulse t - min s.pulse t = |s.pulse - t| := by
    rw [max_sub_min_eq_abs, abs_sub_comm]
  rcases lt_or_le (max s.pulse t - min s.pulse t) s.pulseStep with h | h
  · rw [runSetPulse_small s t h]
    rw [habs] at h
    exact le_of_lt h
  · rw [runSetPulse_big s t hs hpw h]
    obtain ⟨h1, h2⟩ := transSteps_spec _ _ hs h
    have hnn := abs_nonneg (s.pulseStep * (transSteps (max s.pulse t - min s.pulse t) s.pulseStep : Int) - (max s.pulse t - min s.pulse t))
    by_cases hlt : s.pulse < t
    · have hmx : max s.pulse t = t := max_eq_right (le_of_lt hlt)
      have hmn : min s.pulse t = s.pulse := min_eq_left (le_of_lt hlt)
      rw [if_pos hlt]
      rw [hmx, hmn] at h2 hnn ⊢
      simp only
      have : s.pulse + s.pulseStep * 1 *
          (transSteps (t - s.pulse) s.pulseStep : Int) - t
          = s.pulseStep * (transSteps (t - s.pulse) s.pulseStep : Int)
            - (t - s.pulse) := by ring
      rw [this]
      omega
    · have hmx : max s.pulse t = s.pulse := max_eq_left (not_lt.mp hlt)
      have hmn : min s.pulse t = t := min_eq_right (not_lt.mp hlt)
      rw [if_neg hlt]
      rw [hmx, hmn] at h2 hnn ⊢
      simp only
      have : s.pulse + s.pulseStep * (-1) *
          (transSteps (s.pulse - t) s.pulseStep : Int) - t
          = -(s.pulseStep * (transSteps (s.pulse - t) s.pulseStep : Int)
            - (s.pulse - t)) := by ring
      rw [this, abs_neg]
      omega

/-! Basic facts about `setPulse`. -/

theorem setPulse_immediate (s : Servo) (micros : ℚ) (h : s.throttling = 0) :
    setPulse s micros =
      ({ s with stackLen := s.stackLen + 1,
                pulse := constrain (toInt32 micros) s.minPulse s.maxPulse,
                pwmOn := true }, none) := by
  simp only [setPulse]
  rw [if_pos h]

theorem setPulse_throttled (s : Servo) (micros : ℚ) (h : ¬ s.throttling = 0) :
    setPulse s micros =
      ({ s with pwmOn := true },
        some (constrain (toInt32 micros) s.minPulse s.maxPulse)) := by
  simp only [setPulse]
  rw [if_neg h]

theorem constrain_of_mem (x lo hi : Int) (h1 : lo ≤ x) (h2 : x ≤ hi) :
    constrain x lo hi = x := by
  rw [constrain]
  omega

theorem constrain_mem (x lo hi : Int) (h : lo ≤ hi) :
    lo ≤ constrain x lo hi ∧ constrain x lo hi ≤ hi := by
  rw [constrain]
  constructor
  · exact le_min (le_max_right x lo) h
  · exact min_le_right _ _

/-! A two-task interleaving system: one servo, two transition tasks spawned by
two throttled `setPulse` calls, arbitrarily interleaved under the cooperative
scheduler.  Each `SysStep` runs one task's next atomic block. -/

/-- The scheduling state of one background `_setPulse` fiber: spawned but not
yet run, suspended inside the stepping loop, or terminated. -/
inductive TSt where
  | pend (target : Int)
  | run (c : TaskCtx)
  | done
deriving DecidableEq

/-- Task state after an atomic block returning `none` (task returned) or
`some c` (task suspended in `basic.pause`). -/
def tstOf : Option TaskCtx → TSt
  | none => TSt.done
  | some c => TSt.run c

/-- Run the next atomic block of one task. -/
def stepTask (sv : Servo) : TSt → Servo × TSt
  | TSt.pend t => ((taskBegin sv t).1, tstOf (taskBegin sv t).2)
  | TSt.run c => ((taskResume sv c).1, tstOf (taskResume sv c).2)
  | TSt.done => (sv, TSt.done)

/-- One servo with two transition-task fibers. -/
structure Sys where
  sv : Servo
  ta : TSt
  tb : TSt
deriving DecidableEq

/-- Nondeterministic cooperative interleaving: at each step either fiber may
run its next atomic block. -/
inductive SysStep : Sys → Sys → Prop where
  | stepA (s : Sys) : SysStep s ⟨(stepTask s.sv s.ta).1, (stepTask s.sv s.ta).2, s.tb⟩
  | stepB (s : Sys) : SysStep s ⟨(stepTask s.sv s.tb).1, s.ta, (stepTask s.sv s.tb).2⟩

/-- Invariant holding once the superseding task B has performed its
`_anotherCallStack` push while the older task A is suspended in its loop: both
fibers are past their begin block, and A's snapshot can never again equal the
live stack length (the length is either B's pushed value, above A's snapshot,
or 0 after a reset — and A's snapshot is at least 1). -/
def InvC1 (s : Sys) : Prop :=
  (∀ t, s.ta ≠ TSt.pend t) ∧ (∀ t, s.tb ≠ TSt.pend t) ∧
  (∀ c, s.ta = TSt.run c → c.snap ≠ s.sv.stackLen ∧ 1 ≤ c.snap)

theorem invC1_noWriteA (s : Sys) (hI : InvC1 s) :
    (stepTask s.sv s.ta).1.pulse = s.sv.pulse := by
  cases hta : s.ta with
  | pend t => exact absurd hta (hI.1 t)
  | done => rfl
  | run c =>
    have hc := hI.2.2 c hta
    exact (taskResume_stale s.sv c hc.1).1

theorem tstOf_ne_pend (o : Option TaskCtx) (t : Int) : tstOf o ≠ TSt.pend t := by
  cases o with
  | none => exact fun hc => TSt.noConfusion hc
  | some c => exact fun hc => TSt.noConfusion hc

theorem invC1_step (s s' : Sys) (h : SysStep s s') (hI : InvC1 s) : InvC1 s' := by
  cases h with
  | stepA =>
    cases hta : s.ta with
    | pend t => exact absurd hta (hI.1 t)
    | done =>
      exact ⟨fun t hc => TSt.noConfusion hc, hI.2.1, fun c hc => TSt.noConfusion hc⟩
    | run c =>
      have hc := hI.2.2 c hta
      have hr := taskResume_stale s.sv c hc.1
      refine ⟨?_, hI.2.1, ?_⟩
      · intro t
        simp only [stepTask]
        exact tstOf_ne_pend _ t
      · intro c' hc'
        simp only [stepTask, hr.2, tstOf] at hc'
        exact TSt.noConfusion hc'
  | stepB =>
    cases htb : s.tb with
    | pend t => exact absurd htb (hI.2.1 t)
    | done =>
      exact ⟨hI.1, fun t hc => TSt.noConfusion hc, hI.2.2⟩
    | run c =>
      refine ⟨hI.1, ?_, ?_⟩
      · intro t
        simp only [stepTask]
        exact tstOf_ne_pend _ t
      · intro cA hcA
        have hold := hI.2.2 cA hcA
        rcases taskResume_stackLen s.sv c with hlen | hlen
        · simp only [stepTask]
          rw [hlen]
          exact hold
        · simp only [stepTask]
          rw [hlen]
          exact ⟨by omega, hold.2⟩

theorem invC1_reach (s s' : Sys) (h : Relation.ReflTransGen SysStep s s')
    (hI : InvC1 s) : InvC1 s' := by
  induction h with
  | refl => exact hI
  | tail hsteps hstep ih => exact invC1_step _ _ hstep ih

/-! Claim theorems. -/

/-- C2: for every in-range target `t` and servo with positive `_pulseStep`, a
transition started by a throttled `setPulse(t)` that runs to completion
uninterfered (a) returns immediately leaving `_pulse` unchanged when the move
is below one `_pulseStep`, (b) otherwise performs
`Math.round(|to - from| / _pulseStep)` increments of `_pulseStep` toward the
target, and (c) ends with `_pulse` within one `_pulseStep` of the clamped
target. -/
theorem C2_transition_run (s : Servo) (t : Int)
    (hstep : 0 < s.pulseStep) (hthr : ¬ s.throttling = 0)
    (hlo : s.minPulse ≤ t) (hhi : t ≤ s.maxPulse)
    (hr1 : -2 ^ 31 ≤ t) (hr2 : t < 2 ^ 31) :
    (max s.pulse t - min s.pulse t < s.pulseStep →
      (setPulseSync s (t : ℚ)).pulse = s.pulse) ∧
    (s.pulseStep ≤ max s.pulse t - min s.pulse t →
      (setPulseSync s (t : ℚ)).pulse =
        s.pulse + s.pulseStep * (if s.pulse < t then 1 else -1) *
          (transSteps (max s.pulse t - min s.pulse t) s.pulseStep : Int)) ∧
    |(setPulseSync s (t : ℚ)).pulse - constrain t s.minPulse s.maxPulse|
      ≤ s.pulseStep := by
  have hm : constrain (toInt32 (t : ℚ)) s.minPulse s.maxPulse = t := by
    rw [toInt32_intCast t hr1 hr2, constrain_of_mem t _ _ hlo hhi]
  have hsync : setPulseSync s (t : ℚ) = runSetPulse { s with pwmOn := true } t := by
    simp only [setPulseSync, setPulse_throttled s _ hthr, hm]
  refine ⟨?_, ?_, ?_⟩
  · intro hsmall
    rw [hsync, runSetPulse_small { s with pwmOn := true } t hsmall]
  · intro hbig
    rw [hsync, runSetPulse_big { s with pwmOn := true } t hstep rfl hbig]
  · rw [hsync, constrain_of_mem t _ _ hlo hhi]
    exact runSetPulse_within { s with pwmOn := true } t hstep rfl

/-- C2 witness: a concrete throttled servo moving from 1500 to 1540. -/
theorem C2_transition_run_witness :
    (0 < (setDelay (initServo 0 false) 10).pulseStep ∧
      ¬ (setDelay (initServo 0 false) 10).throttling = 0 ∧
      (setDelay (initServo 0 false) 10).minPulse ≤ 1540 ∧
      (1540 : Int) ≤ (setDelay (initServo 0 false) 10).maxPulse) ∧
    ((max (setDelay (initServo 0 false) 10).pulse 1540
        - min (setDelay (initServo 0 false) 10).pulse 1540
        < (setDelay (initServo 0 false) 10).pulseStep →
      (setPulseSync (setDelay (initServo 0 false) 10) (1540 : ℚ)).pulse
        = (setDelay (initServo 0 false) 10).pulse) ∧
    ((setDelay (initServo 0 false) 10).pulseStep
        ≤ max (setDelay (initServo 0 false) 10).pulse 1540
          - min (setDelay (initServo 0 false) 10).pulse 1540 →
      (setPulseSync (setDelay (initServo 0 false) 10) (1540 : ℚ)).pulse
        = (setDelay (initServo 0 false) 10).pulse
          + (setDelay (initServo 0 false) 10).pulseStep
            * (if (setDelay (initServo 0 false) 10).pulse < 1540 then 1 else -1)
            * (transSteps (max (setDelay (initServo 0 false) 10).pulse 1540
                - min (setDelay (initServo 0 false) 10).pulse 1540)
                (setDelay (initServo 0 false) 10).pulseStep : Int)) ∧
    |(setPulseSync (setDelay (initServo 0 false) 10) (1540 : ℚ)).pulse
        - constrain 1540 (setDelay (initServo 0 false) 10).minPulse
            (setDelay (initServo 0 false) 10).maxPulse|
      ≤ (setDelay (initServo 0 false) 10).pulseStep) :=
  ⟨⟨by with_unfolding_all decide, by with_unfolding_all decide,
    by with_unfolding_all decide, by with_unfolding_all decide⟩,
    C2_transition_run (setDelay (initServo 0 false) 10) 1540
      (by with_unfolding_all decide) (by with_unfolding_all decide)
      (by with_unfolding_all decide) (by with_unfolding_all decide)
      (by with_unfolding_all decide) (by with_unfolding_all decide)⟩

/-- C3 counterexample: starting from the defaults, `setPulse(2463)` in
immediate mode (in range, so `_pulse = 2463`), then `setDelay(10)`, then a
throttled `setPulse(2500)` whose transition runs to completion (4 steps of 10
for a distance of 37) drives `_pulse` to `2503`, strictly above
`_maxPulse = 2500` — so the invariant
`min_pulse ≤ current_pulse ≤ max_pulse` does not hold at all times, even for
pulse-setting operations alone. -/
theorem C3_cex :
    (setPulse (initServo 0 false) 2463).1.pulse = 2463 ∧
    (initServo 0 false).minPulse = 500 ∧ (initServo 0 false).maxPulse = 2500 ∧
    (setPulse (setDelay (setPulse (initServo 0 false) 2463).1 10) 2500).2
      = some 2500 ∧
    (runSetPulse (setPulse (setDelay (setPulse (initServo 0 false) 2463).1 10) 2500).1
        2500).pulse = 2503 ∧
    (runSetPulse (setPulse (setDelay (setPulse (initServo 0 false) 2463).1 10) 2500).1
        2500).maxPulse = 2500 ∧
    ¬ ((2503 : Int) ≤ 2500) :=
  ⟨by decide, by decide, by decide, by decide,
    by with_unfolding_all decide, by with_unfolding_all decide, by decide⟩

/-- C3 (amended): immediate-mode `setPulse` does clamp `_pulse` into
`[minPulse, maxPulse]` (when the bounds are ordered), `stop` and the pulse
bound setters leave `_pulse` untouched (they do not re-clamp it), and a
completed uninterfered transition toward an in-range target only guarantees
`minPulse - pulseStep ≤ _pulse ≤ maxPulse + pulseStep`. -/
theorem C3_amended_bounds (s : Servo) (x : ℚ) (t : Int)
    (hmm : s.minPulse ≤ s.maxPulse) (hstep : 0 < s.pulseStep)
    (hpw : s.pwmOn = true) (hlo : s.minPulse ≤ t) (hhi : t ≤ s.maxPulse) :
    (s.throttling = 0 →
      s.minPulse ≤ (setPulse s x).1.pulse ∧ (setPulse s x).1.pulse ≤ s.maxPulse) ∧
    (stop s).pulse = s.pulse ∧
    (setMinPulse s x).pulse = s.pulse ∧
    (setMaxPulse s x).pulse = s.pulse ∧
    (s.minPulse - s.pulseStep ≤ (runSetPulse s t).pulse ∧
      (runSetPulse s t).pulse ≤ s.maxPulse + s.pulseStep) := by
  refine ⟨?_, rfl, rfl, rfl, ?_⟩
  · intro h0
    rw [setPulse_immediate s x h0]
    exact constrain_mem (toInt32 x) _ _ hmm
  · have hw := abs_le.mp (runSetPulse_within s t hstep hpw)
    omega

/-- C3 amended-claim witness at the default configuration. -/
theorem C3_amended_bounds_witness :
    ((initServo 0 true).minPulse ≤ (initServo 0 true).maxPulse ∧
      0 < (initServo 0 true).pulseStep ∧ (initServo 0 true).pwmOn = true ∧
      (initServo 0 true).minPulse ≤ 1460 ∧ (1460 : Int) ≤ (initServo 0 true).maxPulse) ∧
    (((initServo 0 true).throttling = 0 →
      (initServo 0 true).minPulse ≤ (setPulse (initServo 0 true) (40 : ℚ)).1.pulse ∧
        (setPulse (initServo 0 true) (40 : ℚ)).1.pulse ≤ (initServo 0 true).maxPulse) ∧
    (stop (initServo 0 true)).pulse = (initServo 0 true).pulse ∧
    (setMinPulse (initServo 0 true) (40 : ℚ)).pulse = (initServo 0 true).pulse ∧
    (setMaxPulse (initServo 0 true) (40 : ℚ)).pulse = (initServo 0 true).pulse ∧
    ((initServo 0 true).minPulse - (initServo 0 true).pulseStep
        ≤ (runSetPulse (initServo 0 true) 1460).pulse ∧
      (runSetPulse (initServo 0 true) 1460).pulse
        ≤ (initServo 0 true).maxPulse + (initServo 0 true).pulseStep)) :=
  ⟨⟨by with_unfolding_all decide, by with_unfolding_all decide,
    by with_unfolding_all decide, by with_unfolding_all decide,
    by with_unfolding_all decide⟩,
    C3_amended_bounds (initServo 0 true) (40 : ℚ) 1460
      (by with_unfolding_all decide) (by with_unfolding_all decide)
      (by with_unfolding_all decide) (by with_unfolding_all decide)
      (by with_unfolding_all decide)⟩

/-- C4 counterexample: a throttled `setPulse(1540)` from the default state
pushes one timestamp (stack length 1), and when its transition task completes
normally the `this._anotherCallStack = []` reset drops the length back to 0 —
the generation counter decreases, so it is not monotonically increasing and
the value 1 can be observed again by a later transition's snapshot. -/
theorem C4_cex :
    (setPulse (setDelay (initServo 0 false) 10) 1540).2 = some 1540 ∧
    (taskBegin (setPulse (setDelay (initServo 0 false) 10) 1540).1 1540).1.stackLen
      = 1 ∧
    (runSetPulse (setPulse (setDelay (initServo 0 false) 10) 1540).1 1540).stackLen
      = 0 ∧
    ¬ ((1 : Nat) ≤ 0) :=
  ⟨by decide, by with_unfolding_all decide, by with_unfolding_all decide, by decide⟩

/-- C4 (amended): no `setPulse` (either mode), `stop`, or transition-task
begin block ever decreases the call-stack length, and a resume block keeps it
unchanged while the loop is still running — but the terminal resume block
(loop exhausted) resets it to 0. -/
theorem C4_amended_monotone (s : Servo) (c : TaskCtx) (x : ℚ) (t : Int)
    (hstep : 0 < s.pulseStep) :
    s.stackLen ≤ (setPulse s x).1.stackLen ∧
    (stop s).stackLen = s.stackLen ∧
    s.stackLen ≤ (taskBegin s t).1.stackLen ∧
    (taskResume s c).1.stackLen = (if c.k < c.steps then s.stackLen else 0) := by
  refine ⟨?_, rfl, ?_, ?_⟩
  · by_cases h0 : s.throttling = 0
    · rw [setPulse_immediate s x h0]
      exact Nat.le_succ _
    · rw [setPulse_throttled s x h0]
  · by_cases h1 : max s.pulse t - min s.pulse t < s.pulseStep
    · rw [taskBegin_small s t h1]
    · have hd := not_lt.mp h1
      have hsteps : ¬ (transSteps (max s.pulse t - min s.pulse t) s.pulseStep = 0) := by
        have := (transSteps_spec _ _ hstep hd).1
        omega
      simp only [taskBegin]
      rw [if_neg h1, if_neg hsteps]
      split_ifs <;> exact Nat.le_succ _
  · simp only [taskResume]
    by_cases hk : c.k < c.steps
    · rw [if_pos hk, if_pos hk]
      split_ifs <;> rfl
    · rw [if_neg hk, if_neg hk]

/-- C4 amended-claim witness at a concrete state and task context. -/
theorem C4_amended_monotone_witness :
    (0 < (initServo 0 true).pulseStep) ∧
    ((initServo 0 true).stackLen ≤ (setPulse (initServo 0 true) (900 : ℚ)).1.stackLen ∧
    (stop (initServo 0 true)).stackLen = (initServo 0 true).stackLen ∧
    (initServo 0 true).stackLen ≤ (taskBegin (initServo 0 true) 900).1.stackLen ∧
    (taskResume (initServo 0 true) { dir := 1, snap := 1, steps := 5, k := 5 }).1.stackLen
      = (if (5 : Nat) < 5 then (initServo 0 true).stackLen else 0)) :=
  ⟨by with_unfolding_all decide,
    C4_amended_monotone (initServo 0 true) { dir := 1, snap := 1, steps := 5, k := 5 }
      (900 : ℚ) 900 (by with_unfolding_all decide)⟩

/-- C5: with `_throttling == Speed.Immediately` (0), `setPulse(x)`
synchronously sets `_pulse` to the clamp of `x`, pushes one timestamp
(incrementing the generation counter), raises `_pwmOn`, and spawns no
stepping task; repeating the call leaves `_pulse` at the same clamped value
(idempotence). -/
theorem C5_immediate (s : Servo) (x : Int) (hthr : s.throttling = 0)
    (hr1 : -2 ^ 31 ≤ x) (hr2 : x < 2 ^ 31) :
    (setPulse s (x : ℚ)).1 =
      { s with stackLen := s.stackLen + 1,
               pulse := constrain x s.minPulse s.maxPulse, pwmOn := true } ∧
    (setPulse s (x : ℚ)).2 = none ∧
    (setPulse (setPulse s (x : ℚ)).1 (x : ℚ)).1.pulse
      = constrain x s.minPulse s.maxPulse := by
  have hti := toInt32_intCast x hr1 hr2
  have h1 : (setPulse s (x : ℚ)).1 =
      { s with stackLen := s.stackLen + 1,
               pulse := constrain x s.minPulse s.maxPulse, pwmOn := true } := by
    rw [setPulse_immediate s _ hthr, hti]
  refine ⟨h1, ?_, ?_⟩
  · rw [setPulse_immediate s _ hthr]
  · rw [h1, setPulse_immediate
      { s with stackLen := s.stackLen + 1,
               pulse := constrain x s.minPulse s.maxPulse, pwmOn := true }
      (x : ℚ) hthr, hti]

/-- C5 witness: `setPulse(700)` twice on the default immediate-mode servo. -/
theorem C5_immediate_witness :
    ((initServo 0 false).throttling = 0) ∧
    ((setPulse (initServo 0 false) ((700 : Int) : ℚ)).1 =
      { initServo 0 false with
          stackLen := (initServo 0 false).stackLen + 1,
          pulse := constrain 700 (initServo 0 false).minPulse (initServo 0 false).maxPulse,
          pwmOn := true } ∧
    (setPulse (initServo 0 false) ((700 : Int) : ℚ)).2 = none ∧
    (setPulse (setPulse (initServo 0 false) ((700 : Int) : ℚ)).1 ((700 : Int) : ℚ)).1.pulse
      = constrain 700 (initServo 0 false).minPulse (initServo 0 false).maxPulse) :=
  ⟨by with_unfolding_all decide,
    C5_immediate (initServo 0 false) 700 (by with_unfolding_all decide)
      (by with_unfolding_all decide) (by with_unfolding_all decide)⟩

/-- C6: in every state `s` — running, mid-transition or stopped — `stop()`
clears `_pwmOn` and changes nothing else (each of the ten remaining fields is
unchanged); on the resulting stopped state, a transition task's begin block or
a suspended task's resume block (any loop position `c`) writes nothing to
`_pulse` and terminates, and the emission loop's `callPulse()` emits nothing
for the servo. -/
theorem C6_stop_frame (s : Servo) (c : TaskCtx) (t : Int) :
    ((stop s).pwmOn = false ∧ (stop s).pulse = s.pulse ∧ (stop s).pin = s.pin ∧
      (stop s).throttling = s.throttling ∧ (stop s).pulseStep = s.pulseStep ∧
      (stop s).neutralPulse = s.neutralPulse ∧
      (stop s).minPulse = s.minPulse ∧ (stop s).maxPulse = s.maxPulse ∧
      (stop s).minAngle = s.minAngle ∧ (stop s).maxAngle = s.maxAngle ∧
      (stop s).stackLen = s.stackLen) ∧
    ((taskBegin (stop s) t).1.pulse = (stop s).pulse ∧ (taskBegin (stop s) t).2 = none) ∧
    ((taskResume (stop s) c).1.pulse = (stop s).pulse ∧ (taskResume (stop s) c).2 = none) ∧
    callPulse (stop s) = none := by
  refine ⟨⟨rfl, rfl, rfl, rfl, rfl, rfl, rfl, rfl, rfl, rfl, rfl⟩,
    taskBegin_pwmOff (stop s) t rfl, taskResume_pwmOff (stop s) c rfl, rfl⟩

/-- C1 (amended): if task A is suspended in its stepping loop with a live
snapshot (`snap = stackLen ≥ 1`) and a second throttled `setPulse`'s task B is
pending with a move of at least one `_pulseStep`, then B's begin block pushes
the generation to `snap + 1` (i.e. initial + 2, counting A's own earlier
push), and from that point on, in every cooperative interleaving of the two
tasks, task A never again writes `_pulse`.  (The push happens inside the
spawned task, not in `setPulse` itself, and only when the move is at least one
step — see the counterexample.) -/
theorem C1_supersede_amended (s : Sys) (cA : TaskCtx) (tB : Int)
    (ha : s.ta = TSt.run cA) (hb : s.tb = TSt.pend tB)
    (hpw : s.sv.pwmOn = true) (hsnap : cA.snap = s.sv.stackLen) (h1 : 1 ≤ cA.snap)
    (hstep : 0 < s.sv.pulseStep)
    (hmove : s.sv.pulseStep ≤ max s.sv.pulse tB - min s.sv.pulse tB) :
    (stepTask s.sv s.tb).1.stackLen = cA.snap + 1 ∧
    (∀ s2 : Sys, Relation.ReflTransGen SysStep
        ⟨(stepTask s.sv s.tb).1, s.ta, (stepTask s.sv s.tb).2⟩ s2 →
      (stepTask s2.sv s2.ta).1.pulse = s2.sv.pulse) := by
  have hbig := taskBegin_big s.sv tB hstep hpw hmove
  have hst : stepTask s.sv s.tb =
      ({ s.sv with stackLen := s.sv.stackLen + 1,
                   pulse := s.sv.pulse + s.sv.pulseStep * (if s.sv.pulse < tB then 1 else -1) },
        TSt.run { dir := if s.sv.pulse < tB then 1 else -1, snap := s.sv.stackLen + 1,
                  steps := transSteps (max s.sv.pulse tB - min s.sv.pulse tB) s.sv.pulseStep,
                  k := 1 }) := by
    rw [hb]
    simp only [stepTask, hbig, tstOf]
  constructor
  · rw [hst, hsnap]
  · have hI : InvC1 ⟨(stepTask s.sv s.tb).1, s.ta, (stepTask s.sv s.tb).2⟩ := by
      refine ⟨?_, ?_, ?_⟩
      · intro t
        show s.ta ≠ TSt.pend t
        rw [ha]
        exact fun hc => TSt.noConfusion hc
      · intro t
        show (stepTask s.sv s.tb).2 ≠ TSt.pend t
        rw [hst]
        exact fun hc => TSt.noConfusion hc
      · intro c hc
        have hc' : s.ta = TSt.run c := hc
        rw [ha] at hc'
        have hcc : cA = c := by
          injection hc'
        subst hcc
        constructor
        · show cA.snap ≠ (stepTask s.sv s.tb).1.stackLen
          rw [hst]
          show cA.snap ≠ s.sv.stackLen + 1
          omega
        · exact h1
    intro s2 hreach
    exact invC1_noWriteA s2 (invC1_reach _ s2 hreach hI)

/-- C1 amended-claim witness: a servo mid-transition (task A suspended after
its first write toward 1560) with a pending superseding task toward 800. -/
theorem C1_supersede_amended_witness :
    ((⟨(taskBegin (setPulse (setDelay (initServo 0 false) 10) 1560).1 1560).1,
        TSt.run { dir := 1, snap := 1, steps := 6, k := 1 },
        TSt.pend 800⟩ : Sys).ta
      = TSt.run { dir := 1, snap := 1, steps := 6, k := 1 } ∧
     (⟨(taskBegin (setPulse (setDelay (initServo 0 false) 10) 1560).1 1560).1,
        TSt.run { dir := 1, snap := 1, steps := 6, k := 1 },
        TSt.pend 800⟩ : Sys).tb = TSt.pend 800 ∧
     (taskBegin (setPulse (setDelay (initServo 0 false) 10) 1560).1 1560).1.pwmOn
      = true ∧
     ({ dir := 1, snap := 1, steps := 6, k := 1 : TaskCtx }).snap
      = (taskBegin (setPulse (setDelay (initServo 0 false) 10) 1560).1 1560).1.stackLen) ∧
    ((stepTask (⟨(taskBegin (setPulse (setDelay (initServo 0 false) 10) 1560).1 1560).1,
        TSt.run { dir := 1, snap := 1, steps := 6, k := 1 }, TSt.pend 800⟩ : Sys).sv
        (⟨(taskBegin (setPulse (setDelay (initServo 0 false) 10) 1560).1 1560).1,
        TSt.run { dir := 1, snap := 1, steps := 6, k := 1 }, TSt.pend 800⟩ : Sys).tb).1.stackLen
      = ({ dir := 1, snap := 1, steps := 6, k := 1 : TaskCtx }).snap + 1 ∧
    (∀ s2 : Sys, Relation.ReflTransGen SysStep
        ⟨(stepTask (⟨(taskBegin (setPulse (setDelay (initServo 0 false) 10) 1560).1 1560).1,
            TSt.run { dir := 1, snap := 1, steps := 6, k := 1 }, TSt.pend 800⟩ : Sys).sv
          (⟨(taskBegin (setPulse (setDelay (initServo 0 false) 10) 1560).1 1560).1,
            TSt.run { dir := 1, snap := 1, steps := 6, k := 1 }, TSt.pend 800⟩ : Sys).tb).1,
          (⟨(taskBegin (setPulse (setDelay (initServo 0 false) 10) 1560).1 1560).1,
            TSt.run { dir := 1, snap := 1, steps := 6, k := 1 }, TSt.pend 800⟩ : Sys).ta,
          (stepTask (⟨(taskBegin (setPulse (setDelay (initServo 0 false) 10) 1560).1 1560).1,
            TSt.run { dir := 1, snap := 1, steps := 6, k := 1 }, TSt.pend 800⟩ : Sys).sv
          (⟨(taskBegin (setPulse (setDelay (initServo 0 false) 10) 1560).1 1560).1,
            TSt.run { dir := 1, snap := 1, steps := 6, k := 1 }, TSt.pend 800⟩ : Sys).tb).2⟩ s2 →
      (stepTask s2.sv s2.ta).1.pulse = s2.sv.pulse)) :=
  ⟨⟨rfl, rfl, by with_unfolding_all decide, by with_unfolding_all decide⟩,
    C1_supersede_amended
      ⟨(taskBegin (setPulse (setDelay (initServo 0 false) 10) 1560).1 1560).1,
        TSt.run { dir := 1, snap := 1, steps := 6, k := 1 }, TSt.pend 800⟩
      { dir := 1, snap := 1, steps := 6, k := 1 } 800 rfl rfl
      (by with_unfolding_all decide) (by with_unfolding_all decide)
      (by decide) (by with_unfolding_all decide) (by with_unfolding_all decide)⟩

/-- C1 counterexample: `setPulse(1560)` (throttled, from 1500), task A begins
(pushes, generation 1, first write puts `_pulse` at 1510); a second throttled
`setPulse(1513)` is issued while A is still stepping, but its task's move
`|1510 - 1513| = 3` is below one `_pulseStep`, so its begin block returns
without pushing: the generation stays at initial + 1, not initial + 2 — and
task A, never superseded, resumes and keeps stepping toward its own target
(1520, away from the newer target 1513). -/
theorem C1_cex :
    (setPulse (setDelay (initServo 0 false) 10) 1560).2 = some 1560 ∧
    (taskBegin (setPulse (setDelay (initServo 0 false) 10) 1560).1 1560).2
      = some { dir := 1, snap := 1, steps := 6, k := 1 } ∧
    (setDelay (initServo 0 false) 10).stackLen = 0 ∧
    (setPulse (taskBegin (setPulse (setDelay (initServo 0 false) 10) 1560).1 1560).1
        1513).2 = some 1513 ∧
    (taskBegin (setPulse (taskBegin (setPulse (setDelay (initServo 0 false) 10) 1560).1
        1560).1 1513).1 1513).2 = none ∧
    (taskBegin (setPulse (taskBegin (setPulse (setDelay (initServo 0 false) 10) 1560).1
        1560).1 1513).1 1513).1.stackLen = 1 ∧
    ¬ ((1 : Nat) = 0 + 2) ∧
    (taskResume (taskBegin (setPulse (taskBegin (setPulse (setDelay (initServo 0 false)
        10) 1560).1 1560).1 1513).1 1513).1
        { dir := 1, snap := 1, steps := 6, k := 1 }).1.pulse = 1520 :=
  ⟨by decide, by with_unfolding_all rfl, by decide,
    by with_unfolding_all rfl, by with_unfolding_all rfl,
    by with_unfolding_all decide, by decide, by with_unfolding_all decide⟩

/-- C8 counterexample: in immediate mode, `setPulse(1500.6)` stores 1500
(truncation toward zero by `| 0`), while rounding to the nearest integer
microsecond and bounding would give 1501, which is inside the default
bounds — so the clamping step does not round to nearest. -/
theorem C8_cex :
    (setPulse (initServo 0 false) (7503 / 5 : ℚ)).1.pulse = 1500 ∧
    jsRound (7503 / 5 : ℚ) = 1501 ∧
    (initServo 0 false).minPulse ≤ 1501 ∧
    (1501 : Int) ≤ (initServo 0 false).maxPulse ∧
    constrain 1501 (initServo 0 false).minPulse (initServo 0 false).maxPulse = 1501 ∧
    ¬ ((1500 : Int) = 1501) :=
  ⟨by with_unfolding_all decide, by with_unfolding_all decide, by decide,
    by decide, by decide, by decide⟩

/-- C8 (amended): the pulse clamping step truncates the value toward zero
(JS ToInt32, the `| 0` operator) and then bounds it into
`[minPulse, maxPulse]`; for nonnegative fractional inputs this is the floor,
not the nearest integer. -/
theorem C8_trunc_clamp (s : Servo) (v : ℚ) (h0 : 0 ≤ v) (h1 : v < 2 ^ 31)
    (hthr : s.throttling = 0) :
    (setPulse s v).1.pulse = constrain ⌊v⌋ s.minPulse s.maxPulse := by
  have hfl : jsTrunc v = ⌊v⌋ := jsTrunc_eq_floor v h0
  have hlt : ⌊v⌋ < 2 ^ 31 := by
    rw [Int.floor_lt]
    exact_mod_cast h1
  have hge : (0 : Int) ≤ ⌊v⌋ := Int.floor_nonneg.mpr h0
  have hti : toInt32 v = ⌊v⌋ := by
    rw [toInt32_of_range v (by omega) (by omega), hfl]
  rw [setPulse_immediate s v hthr, hti]

/-- C8 amended-claim witness at the input 1500.6. -/
theorem C8_trunc_clamp_witness :
    ((0 : ℚ) ≤ 7503 / 5 ∧ (7503 / 5 : ℚ) < 2 ^ 31 ∧
      (initServo 0 false).throttling = 0) ∧
    (setPulse (initServo 0 false) (7503 / 5 : ℚ)).1.pulse
      = constrain ⌊(7503 / 5 : ℚ)⌋ (initServo 0 false).minPulse
          (initServo 0 false).maxPulse :=
  ⟨⟨by with_unfolding_all decide, by with_unfolding_all decide, by decide⟩,
    C8_trunc_clamp (initServo 0 false) (7503 / 5 : ℚ)
      (by with_unfolding_all decide) (by with_unfolding_all decide) (by decide)⟩

/-- C9: `setAngle(d)` clamps `d | 0` into `[minAngle, maxAngle]` and delegates
to `setPulse(minPulse + (maxPulse - minPulse) * (d' - minAngle) / (maxAngle -
minAngle))`; in particular (immediate mode, nondegenerate configuration)
`setAngle(maxAngle + 10)` yields the pulse of `maxAngle`, i.e. `maxPulse`,
and `setPulse(minPulse - 100)` yields `_pulse = minPulse`. -/
theorem C9_angle_conversion (s : Servo)
    (hthr : s.throttling = 0) (hang : s.minAngle < s.maxAngle)
    (hpl : s.minPulse ≤ s.maxPulse)
    (ha1 : -3600 ≤ s.minAngle) (ha2 : s.maxAngle ≤ 3600)
    (hp1 : 0 ≤ s.minPulse) (hp2 : s.maxPulse ≤ 3000) :
    (∀ d : ℚ, setAngle s d =
      setPulse s ((s.minPulse : ℚ) +
        (((s.maxPulse : ℚ) - (s.minPulse : ℚ)) *
          (((constrain (toInt32 d) s.minAngle s.maxAngle : Int) : ℚ) - (s.minAngle : ℚ))) /
            ((s.maxAngle : ℚ) - (s.minAngle : ℚ)))) ∧
    (setAngle s ((s.maxAngle : ℚ) + 10)).1.pulse = s.maxPulse ∧
    (setPulse s ((s.minPulse : ℚ) - 100)).1.pulse = s.minPulse := by
  refine ⟨?_, ?_, ?_⟩
  · intro d
    simp only [setAngle, angleToPulse, mul_div_assoc]
  · have hdq : ((s.maxAngle : ℚ) + 10) = ((s.maxAngle + 10 : Int) : ℚ) := by
      push_cast
      ring
    have hd : toInt32 ((s.maxAngle : ℚ) + 10) = s.maxAngle + 10 := by
      rw [hdq, toInt32_intCast _ (by omega) (by omega)]
    have hcon : constrain (s.maxAngle + 10) s.minAngle s.maxAngle = s.maxAngle := by
      rw [constrain]
      omega
    have hane : ((s.maxAngle : ℚ) - (s.minAngle : ℚ)) ≠ 0 := by
      rw [sub_ne_zero]
      exact_mod_cast ne_of_gt hang
    have hatp : angleToPulse s ((s.maxAngle : Int) : ℚ)
        = (s.maxPulse : ℚ) - (s.minPulse : ℚ) := by
      rw [angleToPulse, div_self hane, mul_one]
    have htot : (s.minPulse : ℚ) + ((s.maxPulse : ℚ) - (s.minPulse : ℚ))
        = ((s.maxPulse : Int) : ℚ) := by
      ring
    simp only [setAngle, hd, hcon, hatp, htot]
    rw [setPulse_immediate s _ hthr, toInt32_intCast _ (by omega) (by omega)]
    show constrain s.maxPulse s.minPulse s.maxPulse = s.maxPulse
    rw [constrain]
    omega
  · have hdq : ((s.minPulse : ℚ) - 100) = ((s.minPulse - 100 : Int) : ℚ) := by
      push_cast
      ring
    rw [hdq, setPulse_immediate s _ hthr, toInt32_intCast _ (by omega) (by omega)]
    show constrain (s.minPulse - 100) s.minPulse s.maxPulse = s.minPulse
    rw [constrain]
    omega

/-- C9 witness at the default configuration. -/
theorem C9_angle_conversion_witness :
    ((initServo 0 false).throttling = 0 ∧
      (initServo 0 false).minAngle < (initServo 0 false).maxAngle ∧
      (initServo 0 false).minPulse ≤ (initServo 0 false).maxPulse) ∧
    ((∀ d : ℚ, setAngle (initServo 0 false) d =
      setPulse (initServo 0 false) (((initServo 0 false).minPulse : ℚ) +
        ((((initServo 0 false).maxPulse : ℚ) - ((initServo 0 false).minPulse : ℚ)) *
          (((constrain (toInt32 d) (initServo 0 false).minAngle
              (initServo 0 false).maxAngle : Int) : ℚ)
            - ((initServo 0 false).minAngle : ℚ))) /
            (((initServo 0 false).maxAngle : ℚ) - ((initServo 0 false).minAngle : ℚ)))) ∧
    (setAngle (initServo 0 false) (((initServo 0 false).maxAngle : ℚ) + 10)).1.pulse
      = (initServo 0 false).maxPulse ∧
    (setPulse (initServo 0 false) (((initServo 0 false).minPulse : ℚ) - 100)).1.pulse
      = (initServo 0 false).minPulse) :=
  ⟨⟨by decide, by decide, by decide⟩,
    C9_angle_conversion (initServo 0 false) (by decide) (by decide) (by decide)
      (by decide) (by decide) (by decide) (by decide)⟩

/-- C10: `setAngleBy(d)` clamps the relative delta itself into
`[minAngle, maxAngle]` and converts it with the absolute-angle formula
(subtracting `minAngle` before scaling), delegating to
`setPulse(_pulse + _angleToPulse(d'))`; with the default `minAngle = 0`,
every negative delta is clamped to 0 and behaves exactly like
`setAngleBy(0)`, leaving the (in-range) pulse unchanged — it never moves the
servo backward. -/
theorem C10_relative_angle (s : Servo) (d : ℚ)
    (hminA : s.minAngle = 0) (hmaxA : 0 < s.maxAngle)
    (hd : d < 0) (hd2 : -(2 ^ 31) < d) :
    (∀ e : ℚ, setAngleBy s e =
      setPulse s ((s.pulse : ℚ) +
        angleToPulse s ((constrain (toInt32 e) s.minAngle s.maxAngle : Int) : ℚ))) ∧
    setAngleBy s d = setAngleBy s 0 ∧
    (s.throttling = 0 → s.minPulse ≤ s.pulse → s.pulse ≤ s.maxPulse →
      -(2 ^ 31) ≤ s.pulse → s.pulse < 2 ^ 31 →
      (setAngleBy s d).1.pulse = s.pulse) := by
  have hneg : ¬ (0 ≤ d) := not_le.mpr hd
  have hj : jsTrunc d = -⌊-d⌋ := by
    rw [jsTrunc, if_neg hneg]
  have hf0 : (0 : Int) ≤ ⌊-d⌋ := Int.floor_nonneg.mpr (by linarith)
  have hf1 : ⌊-d⌋ < 2 ^ 31 := by
    rw [Int.floor_lt]
    have : ((2 ^ 31 : Int) : ℚ) = (2 ^ 31 : ℚ) := by norm_num
    rw [this]
    linarith
  have hti : toInt32 d = -⌊-d⌋ := by
    rw [toInt32_of_range d (by omega) (by omega), hj]
  have htid : toInt32 d ≤ 0 := by omega
  have hdeg : constrain (toInt32 d) s.minAngle s.maxAngle = 0 := by
    rw [constrain, hminA]
    omega
  have hti0 : toInt32 (0 : ℚ) = 0 := by
    rw [show ((0 : ℚ)) = ((0 : Int) : ℚ) by norm_num,
      toInt32_intCast 0 (by omega) (by omega)]
  have hdeg0 : constrain (toInt32 (0 : ℚ)) s.minAngle s.maxAngle = 0 := by
    rw [hti0, constrain, hminA]
    omega
  refine ⟨?_, ?_, ?_⟩
  · intro e
    simp only [setAngleBy]
  · simp only [setAngleBy, hdeg, hdeg0]
  · intro hthr h1 h2 h3 h4
    have hatp : angleToPulse s ((0 : Int) : ℚ) = 0 := by
      rw [angleToPulse, hminA]
      simp
    simp only [setAngleBy, hdeg, hatp, add_zero]
    rw [setPulse_immediate s _ hthr, toInt32_intCast s.pulse h3 h4]
    show constrain s.pulse s.minPulse s.maxPulse = s.pulse
    rw [constrain]
    omega

/-- C10 witness: the default configuration with delta `-5`. -/
theorem C10_relative_angle_witness :
    ((initServo 0 false).minAngle = 0 ∧ 0 < (initServo 0 false).maxAngle ∧
      (-5 : ℚ) < 0 ∧ -(2 ^ 31) < (-5 : ℚ)) ∧
    ((∀ e : ℚ, setAngleBy (initServo 0 false) e =
      setPulse (initServo 0 false) (((initServo 0 false).pulse : ℚ) +
        angleToPulse (initServo 0 false)
          ((constrain (toInt32 e) (initServo 0 false).minAngle
            (initServo 0 false).maxAngle : Int) : ℚ))) ∧
    setAngleBy (initServo 0 false) (-5 : ℚ) = setAngleBy (initServo 0 false) 0 ∧
    ((initServo 0 false).throttling = 0 →
      (initServo 0 false).minPulse ≤ (initServo 0 false).pulse →
      (initServo 0 false).pulse ≤ (initServo 0 false).maxPulse →
      -(2 ^ 31) ≤ (initServo 0 false).pulse → (initServo 0 false).pulse < 2 ^ 31 →
      (setAngleBy (initServo 0 false) (-5 : ℚ)).1.pulse = (initServo 0 false).pulse)) :=
  ⟨⟨by decide, by decide, by decide, by decide⟩,
    C10_relative_angle (initServo 0 false) (-5 : ℚ) (by decide) (by decide)
      (by decide) (by decide)⟩

/-- Under a degenerate configuration (`minAngle = maxAngle`, ordered pulse
bounds) the conversion divides by zero: NaN at the clamped angle itself,
±Infinity on either side. -/
theorem angleToPulseJs_degenerate (s : Servo) (e : ℚ)
    (hdeg : s.minAngle = s.maxAngle) (hp : s.minPulse < s.maxPulse) :
    angleToPulseJs s (JsNum.finite e) =
      (if e = (s.minAngle : ℚ) then JsNum.nan
        else if (s.minAngle : ℚ) < e then JsNum.inf else JsNum.negInf) := by
  have hA : (s.maxAngle : ℚ) - (s.minAngle : ℚ) = 0 := by
    rw [hdeg, sub_self]
  have hR : (0 : ℚ) < (s.maxPulse : ℚ) - (s.minPulse : ℚ) := by
    have h : (s.minPulse : ℚ) < (s.maxPulse : ℚ) := by exact_mod_cast hp
    linarith
  have hRne : (s.maxPulse : ℚ) - (s.minPulse : ℚ) ≠ 0 := ne_of_gt hR
  have hdiv : jsDiv (JsNum.finite (e - (s.minAngle : ℚ))) (JsNum.finite 0)
      = (if e = (s.minAngle : ℚ) then JsNum.nan
          else if (s.minAngle : ℚ) < e then JsNum.inf else JsNum.negInf) := by
    simp only [jsDiv, if_true]
    by_cases h1 : e = (s.minAngle : ℚ)
    · rw [if_pos (show e - (s.minAngle : ℚ) = 0 by rw [h1, sub_self]), if_pos h1]
    · rw [if_neg (show ¬ (e - (s.minAngle : ℚ) = 0) from fun hc => h1 (by linarith)),
        if_neg h1]
      by_cases h2 : (s.minAngle : ℚ) < e
      · rw [if_pos (show (0 : ℚ) < e - (s.minAngle : ℚ) by linarith), if_pos h2]
      · rw [if_neg (show ¬ ((0 : ℚ) < e - (s.minAngle : ℚ)) from
          fun hc => h2 (by linarith)), if_neg h2]
  have hmulI : jsMul (JsNum.finite ((s.maxPulse : ℚ) - (s.minPulse : ℚ))) JsNum.inf
      = JsNum.inf := by
    simp only [jsMul]
    rw [if_neg hRne, if_pos hR]
  have hmulN : jsMul (JsNum.finite ((s.maxPulse : ℚ) - (s.minPulse : ℚ))) JsNum.negInf
      = JsNum.negInf := by
    simp only [jsMul]
    rw [if_neg hRne, if_pos hR]
  simp only [angleToPulseJs, jsSub]
  rw [hA, hdiv]
  split_ifs with h1 h2
  · rfl
  · exact hmulI
  · exact hmulN

/-- C7 counterexample: make the configuration degenerate from the defaults by
`setMaxAngle(0)` (so `minAngle = maxAngle = 0`).  The conversion then returns
NaN at angle 0 and +Infinity at angle 90 — not a zero offset — and the
"no-op" fails observably: an immediate `setAngleBy(0)` on that servo snaps
`_pulse` from 1500 to `minPulse = 500` (NaN propagates into the target and
the callers' `| 0` coerces it to 0, which is then clamped). -/
theorem C7_cex :
    (setMaxAngle (initServo 0 false) 0).minAngle
      = (setMaxAngle (initServo 0 false) 0).maxAngle ∧
    angleToPulseJs (setMaxAngle (initServo 0 false) 0) (JsNum.finite 0) = JsNum.nan ∧
    ¬ (angleToPulseJs (setMaxAngle (initServo 0 false) 0) (JsNum.finite 0)
        = JsNum.finite 0) ∧
    angleToPulseJs (setMaxAngle (initServo 0 false) 0) (JsNum.finite 90) = JsNum.inf ∧
    (setMaxAngle (initServo 0 false) 0).pulse = 1500 ∧
    (setAngleByJs (setMaxAngle (initServo 0 false) 0) (JsNum.finite 0)).1.pulse = 500 ∧
    ¬ ((500 : Int) = 1500) := by
  have h0 : angleToPulseJs (setMaxAngle (initServo 0 false) 0) (JsNum.finite 0)
      = JsNum.nan := by
    with_unfolding_all rfl
  have h90 : angleToPulseJs (setMaxAngle (initServo 0 false) 0) (JsNum.finite 90)
      = JsNum.inf := by
    with_unfolding_all rfl
  refine ⟨by decide, h0, ?_, h90, by decide, by with_unfolding_all decide, by decide⟩
  rw [h0]
  exact fun hc => JsNum.noConfusion hc

/-- C7 (amended): under the degenerate configuration `minAngle = maxAngle`
(with ordered pulse bounds), the angle-to-pulse conversion does not fault but
returns NaN at the clamped angle and never a finite zero offset; the zero
appears only downstream, where the callers' `| 0` (ToInt32) coerces
NaN/±Infinity to 0 — so an immediate `setAngle` or `setAngleBy` sets
`_pulse` to `clamp(0) = minPulse` rather than performing a no-op. -/
theorem C7_degenerate_conversion (s : Servo)
    (hdeg : s.minAngle = s.maxAngle) (hp : s.minPulse < s.maxPulse) :
    angleToPulseJs s (JsNum.finite (s.minAngle : ℚ)) = JsNum.nan ∧
    (∀ e : ℚ, angleToPulseJs s (JsNum.finite e) ≠ JsNum.finite 0) ∧
    (∀ e : ℚ, toInt32Js (angleToPulseJs s (JsNum.finite e)) = 0) ∧
    (s.throttling = 0 → ∀ x : JsNum,
      (setAngleJs s x).1.pulse = constrain 0 s.minPulse s.maxPulse ∧
      (setAngleByJs s x).1.pulse = constrain 0 s.minPulse s.maxPulse) := by
  have hnan : angleToPulseJs s (JsNum.finite (s.minAngle : ℚ)) = JsNum.nan := by
    rw [angleToPulseJs_degenerate s _ hdeg hp, if_pos rfl]
  have hcon : ∀ tt : Int, constrain tt s.minAngle s.maxAngle = s.minAngle := by
    intro tt
    rw [constrain, hdeg]
    omega
  refine ⟨hnan, ?_, ?_, ?_⟩
  · intro e
    rw [angleToPulseJs_degenerate s e hdeg hp]
    split_ifs with h1 h2
    · exact fun hc => JsNum.noConfusion hc
    · exact fun hc => JsNum.noConfusion hc
    · exact fun hc => JsNum.noConfusion hc
  · intro e
    rw [angleToPulseJs_degenerate s e hdeg hp]
    split_ifs with h1 h2
    · rfl
    · rfl
    · rfl
  · intro hthr x
    constructor
    · simp only [setAngleJs, hcon, hnan]
      simp only [jsAdd, setPulseJs, toInt32Js]
      rw [if_pos hthr]
    · simp only [setAngleByJs, hcon, hnan]
      simp only [jsAdd, setPulseJs, toInt32Js]
      rw [if_pos hthr]

/-- C7 amended-claim witness: the default configuration made degenerate by
`setMaxAngle(0)`. -/
theorem C7_degenerate_conversion_witness :
    ((setMaxAngle (initServo 0 false) 0).minAngle
        = (setMaxAngle (initServo 0 false) 0).maxAngle ∧
      (setMaxAngle (initServo 0 false) 0).minPulse
        < (setMaxAngle (initServo 0 false) 0).maxPulse) ∧
    (angleToPulseJs (setMaxAngle (initServo 0 false) 0)
        (JsNum.finite ((setMaxAngle (initServo 0 false) 0).minAngle : ℚ)) = JsNum.nan ∧
    (∀ e : ℚ, angleToPulseJs (setMaxAngle (initServo 0 false) 0) (JsNum.finite e)
        ≠ JsNum.finite 0) ∧
    (∀ e : ℚ, toInt32Js (angleToPulseJs (setMaxAngle (initServo 0 false) 0)
        (JsNum.finite e)) = 0) ∧
    ((setMaxAngle (initServo 0 false) 0).throttling = 0 → ∀ x : JsNum,
      (setAngleJs (setMaxAngle (initServo 0 false) 0) x).1.pulse
        = constrain 0 (setMaxAngle (initServo 0 false) 0).minPulse
            (setMaxAngle (initServo 0 false) 0).maxPulse ∧
      (setAngleByJs (setMaxAngle (initServo 0 false) 0) x).1.pulse
        = constrain 0 (setMaxAngle (initServo 0 false) 0).minPulse
            (setMaxAngle (initServo 0 false) 0).maxPulse)) :=
  ⟨⟨by decide, by decide⟩,
    C7_degenerate_conversion (setMaxAngle (initServo 0 false) 0)
      (by decide) (by decide)⟩

end ServoPWM
